import Mathlib

/-!
A shallow embedding of `src/laser_merger2.cpp` (the `laser_merger2` node):
the scan-to-points conversion (`scantoPointXYZ`), the cloud-to-points
conversion (`pointCloudtoPointXYZ`), the two output projections
(`ConvertPointCloud2`, `ConvertLaserScan`) and the fusion cycle
(`laser_merge`), together with theorems settling the specification claims.

Modelling conventions:
* C++ `double` values are modelled as `ℚ`.  The transcendental library
  functions (`std::cos`, `std::sin`, `std::hypot`, `std::atan2`, and the
  quaternion-to-yaw extraction `getRPY`) are not definable on `ℚ`, so they
  are passed as opaque function parameters (`cosF`, `sinF`, `hypF`, `at2F`);
  every theorem quantifies over them, and witnesses instantiate them with
  concrete functions.  The control flow and data flow around them follow the
  C++ line by line.
* `std::numeric_limits<double>::infinity()` is modelled by `⊤` in
  `WithTop ℚ`; the range array of the synthetic scan holds `WithTop ℚ`.
* A C++ `std::vector<T>` indexed write `v[i] = x` with `i` out of bounds is
  undefined behaviour; the model makes it a no-op (`setAt`), and an
  out-of-bounds read yields `⊤` (`getAt`).  The safety claim about index
  bounds is settled separately, so no theorem depends on the behaviour the
  model assigns to an out-of-bounds access other than through that claim.
* `std::optional<float>::value()` on an empty optional throws
  `std::bad_optional_access` in C++; the model reads it as `Option.getD _ 0`
  and a separate executable predicate records whether any such empty-optional
  access is reached, which settles the corresponding safety claim.
* The `PointCloud2Iterator` constructors (lines 200-202, 207 and 261-264)
  throw `std::runtime_error` when the named field is absent from the message,
  and the no-intensity branch of `ConvertPointCloud2` calls
  `setPointCloud2Fields(4, ...)` with only three field triples
  (lines 256-258), a varargs over-read that is undefined behaviour; both are
  modelled as `Except.error ()`.  Nothing in `laser_merge` catches an
  exception, so an erroring conversion or projection aborts the cycle and
  nothing (more) is published.
-/

/-- One fused point, mirroring `SCAN_POINT_t`: target-frame coordinates and
an optional intensity. -/
structure SCAN_POINT where
  x : ℚ
  y : ℚ
  z : ℚ
  intensity : Option ℚ
deriving DecidableEq, Repr, Inhabited

/-- The node parameters consumed by `ConvertLaserScan` (lines 296-311 of the
source): output scan geometry and the fill-value policy. -/
structure ScanParams where
  min_angle : ℚ
  max_angle : ℚ
  angle_increment : ℚ
  min_range : ℚ
  max_range : ℚ
  use_inf : Bool
  inf_epsilon : ℚ
deriving DecidableEq, Repr

/-- The C cast from `double` to `int` truncates toward zero; on `ℚ` that is
the floor for nonnegative arguments and the ceiling otherwise.  Used for
`int index = (angle - angle_min) / angle_increment` (line 326). -/
def cTrunc (q : ℚ) : Int :=
  if 0 ≤ q then ⌊q⌋ else ⌈q⌉

/-- `std::ceil` on `ℚ`; the result is cast to `uint32_t` at line 305,
modelled by `Int.toNat`. -/
def cCeil (q : ℚ) : Int :=
  ⌈q⌉

/-- Number of rays of the synthetic scan:
`ranges_size = std::ceil((angle_max - angle_min) / angle_increment)`
(line 305). -/
def rangesSize (P : ScanParams) : Nat :=
  (cCeil ((P.max_angle - P.min_angle) / P.angle_increment)).toNat

/-- Read `v[i]` for an `int` index: in bounds it is the stored value, out of
bounds (negative or past the end) the C++ is undefined behaviour and the
model yields `⊤`. -/
def getAt (l : List (WithTop ℚ)) (i : Int) : WithTop ℚ :=
  if 0 ≤ i then l.getD i.toNat ⊤ else ⊤

/-- Write `v[i] = x` for an `int` index: in bounds it stores, out of bounds
the C++ is undefined behaviour and the model leaves the list unchanged
(`List.set` is already a no-op past the end). -/
def setAt {α : Type} (l : List α) (i : Int) (v : α) : List α :=
  if 0 ≤ i then l.set i.toNat v else l

/-- The rejection test of the projection loop (line 321):
`range < min_range || range > max_range || angle < angle_min || angle > angle_max`. -/
def rejectPoint (P : ScanParams) (range angle : ℚ) : Bool :=
  decide (range < P.min_range) || decide (range > P.max_range) ||
  decide (angle < P.min_angle) || decide (angle > P.max_angle)

/-- The bin index of line 326: `(angle - angle_min) / angle_increment`
computed in `double` and cast to `int`. -/
def binIndex (P : ScanParams) (angle : ℚ) : Int :=
  cTrunc ((angle - P.min_angle) / P.angle_increment)

/-- One iteration of the projection loop (lines 317-334) acting on the pair
(ranges array, intensities array).  `hasInt` is the `has_intensity` flag
computed before the loop; `hypF`/`at2F` stand for `hypot`/`atan2`. -/
def scanStep (P : ScanParams) (hypF at2F : ℚ → ℚ → ℚ) (hasInt : Bool)
    (st : List (WithTop ℚ) × List ℚ) (p : SCAN_POINT) :
    List (WithTop ℚ) × List ℚ :=
  let range := hypF p.x p.y
  let angle := at2F p.y p.x
  if rejectPoint P range angle then st
  else
    let index := binIndex P angle
    let rs := if (range : WithTop ℚ) < getAt st.1 index
              then setAt st.1 index (range : WithTop ℚ) else st.1
    let is := if hasInt then setAt st.2 index (p.intensity.getD 0) else st.2
    (rs, is)

/-- The fields of the published `LaserScan` message that the claims are
about. -/
structure LaserScanOut where
  angle_min : ℚ
  angle_max : ℚ
  angle_increment : ℚ
  range_min : ℚ
  range_max : ℚ
  ranges : List (WithTop ℚ)
  intensities : List ℚ
deriving DecidableEq, Repr

/-- Body of `ConvertLaserScan` after the empty-input early return
(lines 292-334): fill the range array with `inf` or `max_range + inf_epsilon`,
allocate the intensities array when `points[0]` carries intensity, then run
the projection loop over all points. -/
def buildLaserScan (P : ScanParams) (hypF at2F : ℚ → ℚ → ℚ)
    (pts : List SCAN_POINT) : LaserScanOut :=
  let size := rangesSize P
  let fill : WithTop ℚ :=
    if P.use_inf then ⊤ else ((P.max_range + P.inf_epsilon : ℚ) : WithTop ℚ)
  let hasInt := match pts with
    | [] => false
    | p :: _ => p.intensity.isSome
  let init : List (WithTop ℚ) × List ℚ :=
    (List.replicate size fill, if hasInt then List.replicate size 0 else [])
  let final := pts.foldl (scanStep P hypF at2F hasInt) init
  { angle_min := P.min_angle, angle_max := P.max_angle,
    angle_increment := P.angle_increment,
    range_min := P.min_range, range_max := P.max_range,
    ranges := final.1, intensities := final.2 }

/-- `ConvertLaserScan` (lines 287-337): publishes nothing on an empty point
set (line 289), otherwise publishes the built scan message. -/
def ConvertLaserScan (P : ScanParams) (hypF at2F : ℚ → ℚ → ℚ)
    (pts : List SCAN_POINT) : Option LaserScanOut :=
  if pts.isEmpty then none else some (buildLaserScan P hypF at2F pts)

/-- A 4-component column vector of `double`s (an Eigen `Matrix<double,4,1>`). -/
structure Vec4 where
  a0 : ℚ
  a1 : ℚ
  a2 : ℚ
  a3 : ℚ
deriving DecidableEq, Repr

/-- A 4x4 matrix of `double`s stored by rows (an Eigen `Matrix4d`). -/
structure Mat4 where
  r0 : Vec4
  r1 : Vec4
  r2 : Vec4
  r3 : Vec4
deriving DecidableEq, Repr

/-- Dot product of two 4-vectors. -/
def vec4Dot (u v : Vec4) : ℚ :=
  u.a0 * v.a0 + u.a1 * v.a1 + u.a2 * v.a2 + u.a3 * v.a3

/-- Matrix-vector product `M * v`. -/
def mat4Apply (M : Mat4) (v : Vec4) : Vec4 :=
  ⟨vec4Dot M.r0 v, vec4Dot M.r1 v, vec4Dot M.r2 v, vec4Dot M.r3 v⟩

/-- `Rotate3Z` (lines 111-123): zero matrix, then the Z-rotation block from
`cos`/`sin` of the angle and ones on the last two diagonal entries.  `cosF`
and `sinF` stand for `std::cos` and `std::sin`. -/
def Rotate3Z (cosF sinF : ℚ → ℚ) (rad : ℚ) : Mat4 :=
  { r0 := ⟨cosF rad, -1 * sinF rad, 0, 0⟩,
    r1 := ⟨sinF rad, cosF rad, 0, 0⟩,
    r2 := ⟨0, 0, 1, 0⟩,
    r3 := ⟨0, 0, 0, 1⟩ }

/-- The data of a `geometry_msgs TransformStamped` after the quaternion has
been reduced to roll/pitch/yaw by `getRPY` (lines 129-134): the translation
and the yaw angle.  Roll and pitch are extracted by the source and then
discarded, so they do not appear. -/
structure TransRecord where
  tx : ℚ
  ty : ℚ
  tz : ℚ
  yaw : ℚ
deriving DecidableEq, Repr

/-- `ConvertTransMatrix` (lines 125-148): a homogeneous transform built from
the translation and only the yaw part of the rotation. -/
def ConvertTransMatrix (cosF sinF : ℚ → ℚ) (tr : TransRecord) : Mat4 :=
  { r0 := ⟨cosF tr.yaw, -1 * sinF tr.yaw, 0, tr.tx⟩,
    r1 := ⟨sinF tr.yaw, cosF tr.yaw, 0, tr.ty⟩,
    r2 := ⟨0, 0, 1, tr.tz⟩,
    r3 := ⟨0, 0, 0, 1⟩ }

/-- The fields of a buffered `LaserScan` input message that the conversion
reads. -/
structure LaserScanMsgIn where
  frame_id : String
  angle_min : ℚ
  angle_increment : ℚ
  range_min : ℚ
  range_max : ℚ
  ranges : List ℚ
  intensities : List ℚ
deriving DecidableEq, Repr

/-- The point produced from sample `i` of a scan (lines 176-184):
`scanPos = T * Rotate3Z(angle_min + i * angle_increment) * (range, 0, 0, 1)`,
with intensity attached when the `has_intensity` flag is set. -/
def scanPointAt (cosF sinF : ℚ → ℚ) (T : Mat4) (scan : LaserScanMsgIn)
    (hasInt : Bool) (i : Nat) : SCAN_POINT :=
  let scanRange : Vec4 := ⟨scan.ranges.getD i 0, 0, 0, 1⟩
  let scanPos :=
    mat4Apply T (mat4Apply
      (Rotate3Z cosF sinF (scan.angle_min + i * scan.angle_increment)) scanRange)
  { x := scanPos.a0, y := scanPos.a1, z := scanPos.a2,
    intensity := if hasInt then some (scan.intensities.getD i 0) else none }

/-- The sample loop of `scantoPointXYZ` (lines 167-185): skip samples with
`range <= range_min || range >= range_max`, transform the rest. -/
def scanLoopPoints (cosF sinF : ℚ → ℚ) (T : Mat4) (scan : LaserScanMsgIn) :
    List SCAN_POINT :=
  let hasInt := scan.intensities.length == scan.ranges.length
  (List.range scan.ranges.length).foldl
    (fun pts i =>
      if scan.ranges.getD i 0 ≤ scan.range_min ∨
         scan.ranges.getD i 0 ≥ scan.range_max then pts
      else pts ++ [scanPointAt cosF sinF T scan hasInt i]) []

/-- `scantoPointXYZ` (lines 150-188): look up the transform from the scan's
frame to the target frame; on failure (`lookup` returns `none`, the modelled
`tf2::TransformException`) return the empty point set, otherwise run the
sample loop with the converted matrix. -/
def scantoPointXYZ (cosF sinF : ℚ → ℚ) (lookup : String → Option TransRecord)
    (scan : LaserScanMsgIn) : List SCAN_POINT :=
  match lookup scan.frame_id with
  | none => []
  | some tr => scanLoopPoints cosF sinF (ConvertTransMatrix cosF sinF tr) scan

/-- The fields of a buffered `PointCloud2` input message that the conversion
reads: the field-name list and the x/y/z/intensity channels. -/
structure PointCloud2In where
  frame_id : String
  fields : List String
  xs : List ℚ
  ys : List ℚ
  zs : List ℚ
  intens : List ℚ
deriving DecidableEq, Repr

/-- `pointCloudtoPointXYZ` (lines 190-224): delegate the transform to the
collaborator (`tpc`, modelling `pcl_ros transformPointCloud`); its `false`
return (modelled by `none`) is handled by logging and returning the empty
point set (lines 195-198).  On success the code unconditionally constructs
`PointCloud2ConstIterator`s for the fields "x", "y", "z" (lines 200-202) and
"intensity" (line 207) on the *transformed* cloud; each constructor throws
`std::runtime_error` when the named field is absent, and nothing in the call
chain catches it — modelled by `Except.error ()`.  Otherwise iterate the
transformed x/y/z channels, attaching the intensity channel iff the
*original* cloud's field list contains a field named "intensity"
(lines 204-206). -/
def pointCloudtoPointXYZ (tpc : PointCloud2In → Option PointCloud2In)
    (cloud : PointCloud2In) : Except Unit (List SCAN_POINT) :=
  match tpc cloud with
  | none => .ok []
  | some tc =>
      if tc.fields.contains "x" && tc.fields.contains "y" &&
         tc.fields.contains "z" && tc.fields.contains "intensity" then
        let hasInt := cloud.fields.contains "intensity"
        .ok ((List.range tc.xs.length).foldl
          (fun pts i =>
            pts ++ [{ x := tc.xs.getD i 0, y := tc.ys.getD i 0,
                      z := tc.zs.getD i 0,
                      intensity := if hasInt then some (tc.intens.getD i 0)
                                   else none }]) [])
      else .error ()

/-- The fields of the published `PointCloud2` message that the claims are
about: its width, whether an intensity field was declared, and the channel
contents written by the fill loop (lines 241-282). -/
structure PclOut where
  width : Nat
  hasIntensityField : Bool
  xs : List ℚ
  ys : List ℚ
  zs : List ℚ
  intens : List ℚ
deriving DecidableEq, Repr

/-- The message built and published by the `has_intensity` branch of
`ConvertPointCloud2` (lines 246-252, 261-284): x/y/z/intensity fields
declared, one point written per index in order, reading
`points[i].intensity.value()` — modelled by `Option.getD _ 0`, with the
empty-optional case tracked separately by `convertPointCloud2Ok`. -/
def buildPointCloud2 (pts : List SCAN_POINT) : PclOut :=
  { width := pts.length, hasIntensityField := true,
    xs := pts.map (fun p => p.x), ys := pts.map (fun p => p.y),
    zs := pts.map (fun p => p.z),
    intens := pts.map (fun p => p.intensity.getD 0) }

/-- `ConvertPointCloud2` (lines 231-285): publishes nothing on an empty
point set (line 233).  When `points[0]` carries intensity, the
x/y/z/intensity message is built and published.  When it does not, the code
calls `setPointCloud2Fields(4, ...)` passing only three field triples
(lines 256-258) — a varargs over-read, undefined behaviour — and line 264
then unconditionally constructs a `PointCloud2Iterator` for a field named
"intensity", whose constructor throws `std::runtime_error` since the
message declares no such field: the function cannot complete normally and
publishes nothing — modelled by `Except.error ()`. -/
def ConvertPointCloud2 (pts : List SCAN_POINT) : Except Unit (Option PclOut) :=
  match pts with
  | [] => .ok none
  | p0 :: _ =>
      if p0.intensity.isSome then .ok (some (buildPointCloud2 pts))
      else .error ()

/-- Whether the fill loop of `ConvertPointCloud2` ever calls
`points[i].intensity.value()` on an empty optional (which throws
`std::bad_optional_access` in C++): when `points[0]` carries intensity the
loop reads `value()` on every point (lines 273-274). -/
def convertPointCloud2Ok (pts : List SCAN_POINT) : Bool :=
  match pts with
  | [] => true
  | p0 :: _ => !p0.intensity.isSome || pts.all (fun p => p.intensity.isSome)

/-- Whether the projection loop of `ConvertLaserScan` ever calls
`points[i].intensity.value()` on an empty optional: when `points[0]` carries
intensity the loop reads `value()` on every point that survives the
range/angle filter (lines 332-333). -/
def convertLaserScanOk (P : ScanParams) (hypF at2F : ℚ → ℚ → ℚ)
    (pts : List SCAN_POINT) : Bool :=
  match pts with
  | [] => true
  | p0 :: _ =>
      !p0.intensity.isSome ||
      pts.all (fun p =>
        rejectPoint P (hypF p.x p.y) (at2F p.y p.x) || p.intensity.isSome)

/-- The drain step of one fusion cycle (lines 345-364): convert every
buffered scan (`scantoPointXYZ` catches its transform exception and cannot
throw), then every buffered cloud, concatenating the results in order into
the cycle's accumulator.  An exception thrown inside `pointCloudtoPointXYZ`
propagates (nothing in `laser_merge` catches it): the loop aborts at that
source and the cycle produces nothing. -/
def drainBuffers (cosF sinF : ℚ → ℚ) (lookup : String → Option TransRecord)
    (tpc : PointCloud2In → Option PointCloud2In)
    (scanBuf : List LaserScanMsgIn) (cloudBuf : List PointCloud2In) :
    Except Unit (List SCAN_POINT) :=
  let p1 := scanBuf.foldl
    (fun pts s => pts ++ scantoPointXYZ cosF sinF lookup s) []
  cloudBuf.foldl
    (fun acc c =>
      match acc with
      | .error e => .error e
      | .ok pts =>
          match pointCloudtoPointXYZ tpc c with
          | .error e => .error e
          | .ok cps => .ok (pts ++ cps)) (.ok p1)

/-- The publication step of one fusion cycle (lines 366-370): if the drain
completed and the accumulator is non-empty, `ConvertPointCloud2` runs first
(publishing at line 284 on success; on its failure paths the exception
aborts the cycle before anything is published and `ConvertLaserScan` never
runs), then `ConvertLaserScan` runs and publishes.  If the accumulator is
empty, the guard at line 366 skips both projections and nothing is
published.  `Except.error ()` is an exception escaping the loop body of
`laser_merge`, which has no handler. -/
def laserMergeCycle (P : ScanParams) (cosF sinF : ℚ → ℚ)
    (hypF at2F : ℚ → ℚ → ℚ) (lookup : String → Option TransRecord)
    (tpc : PointCloud2In → Option PointCloud2In)
    (scanBuf : List LaserScanMsgIn) (cloudBuf : List PointCloud2In) :
    Except Unit (Option PclOut × Option LaserScanOut) :=
  match drainBuffers cosF sinF lookup tpc scanBuf cloudBuf with
  | .error e => .error e
  | .ok pts =>
      if pts.isEmpty then .ok (none, none)
      else
        match ConvertPointCloud2 pts with
        | .error e => .error e
        | .ok pclMsg => .ok (pclMsg, ConvertLaserScan P hypF at2F pts)

/-- The observable events of one iteration of `laser_merge` (lines 345-372),
in program order. -/
inductive MergeEvent where
  | lockAcquire : MergeEvent
  | convertScan : String → MergeEvent
  | clearScanBuffer : MergeEvent
  | convertCloud : String → MergeEvent
  | clearCloudBuffer : MergeEvent
  | lockRelease : MergeEvent
  | publishCloud : MergeEvent
  | publishScan : MergeEvent
deriving DecidableEq, Repr, BEq

/-- The event trace of one iteration of `laser_merge` (lines 345-372): the
`std::lock_guard` block (lines 347-364) encloses the scan conversions, the
scan-buffer clear, the cloud conversions and the cloud-buffer clear; the
publications happen after the block, only when points were produced. -/
def laserMergeTrace (scanFrames cloudFrames : List String)
    (producedPoints : Bool) : List MergeEvent :=
  [MergeEvent.lockAcquire] ++
  scanFrames.map MergeEvent.convertScan ++ [MergeEvent.clearScanBuffer] ++
  cloudFrames.map MergeEvent.convertCloud ++ [MergeEvent.clearCloudBuffer] ++
  [MergeEvent.lockRelease] ++
  (if producedPoints then [MergeEvent.publishCloud, MergeEvent.publishScan]
   else [])

/-- The events of a trace that occur while the lock is held: those strictly
between the first `lockAcquire` and the following `lockRelease`. -/
def criticalSection (tr : List MergeEvent) : List MergeEvent :=
  ((tr.dropWhile (fun e => e != MergeEvent.lockAcquire)).drop 1).takeWhile
    (fun e => e != MergeEvent.lockRelease)

/-! ### Helper lemmas about the indexed-write primitives -/

theorem length_setAt {α : Type} (l : List α) (i : Int) (v : α) :
    (setAt l i v).length = l.length := by
  unfold setAt
  split
  · exact List.length_set l i.toNat v
  · rfl

theorem getElem?_setAt {α : Type} (l : List α) (i : Int) (v : α) (n : Nat) :
    (setAt l i v)[n]? = if i = (n : Int) ∧ n < l.length then some v else l[n]? := by
  unfold setAt
  split
  · rw [List.getElem?_set]
    rcases eq_or_ne i (n : Int) with hi | hi
    · have ht : i.toNat = n := by omega
      by_cases hn : n < l.length
      · simp [ht, hi, hn]
      · simp [ht, hi, hn, List.getElem?_eq_none (le_of_not_lt hn)]
    · have ht : i.toNat ≠ n := by omega
      simp [ht, hi]
  · have hc : ¬(i = (n : Int) ∧ n < l.length) := by
      intro ⟨h1, _⟩
      omega
    simp [hc]

theorem getAt_natCast (rs : List (WithTop ℚ)) (n : Nat) :
    getAt rs (n : Int) = rs[n]?.getD ⊤ := by
  unfold getAt
  simp [List.getD_eq_getElem?_getD]

/-- The range-array part of one projection-loop iteration: the intensity
write does not feed back into the range array, so the range array evolves by
this function alone. -/
def rangeStep (P : ScanParams) (hypF at2F : ℚ → ℚ → ℚ)
    (rs : List (WithTop ℚ)) (p : SCAN_POINT) : List (WithTop ℚ) :=
  if rejectPoint P (hypF p.x p.y) (at2F p.y p.x) then rs
  else if ((hypF p.x p.y : ℚ) : WithTop ℚ) < getAt rs (binIndex P (at2F p.y p.x))
  then setAt rs (binIndex P (at2F p.y p.x)) ((hypF p.x p.y : ℚ) : WithTop ℚ)
  else rs

theorem scanStep_fst (P : ScanParams) (hypF at2F : ℚ → ℚ → ℚ) (hasInt : Bool)
    (st : List (WithTop ℚ) × List ℚ) (p : SCAN_POINT) :
    (scanStep P hypF at2F hasInt st p).1 = rangeStep P hypF at2F st.1 p := by
  by_cases hrej : rejectPoint P (hypF p.x p.y) (at2F p.y p.x) = true
  · simp [scanStep, rangeStep, hrej]
  · simp [scanStep, rangeStep, hrej]

theorem foldl_scanStep_fst (P : ScanParams) (hypF at2F : ℚ → ℚ → ℚ)
    (hasInt : Bool) (l : List SCAN_POINT) (st : List (WithTop ℚ) × List ℚ) :
    (l.foldl (scanStep P hypF at2F hasInt) st).1 =
      l.foldl (rangeStep P hypF at2F) st.1 := by
  induction l generalizing st with
  | nil => rfl
  | cons p l ih =>
      rw [List.foldl_cons, List.foldl_cons, ih, scanStep_fst]

theorem getElem?_rangeStep (P : ScanParams) (hypF at2F : ℚ → ℚ → ℚ)
    (rs : List (WithTop ℚ)) (p : SCAN_POINT) (n : Nat) :
    (rangeStep P hypF at2F rs p)[n]? =
      if rejectPoint P (hypF p.x p.y) (at2F p.y p.x) = false ∧
         binIndex P (at2F p.y p.x) = (n : Int)
      then rs[n]?.map (fun old => min old ((hypF p.x p.y : ℚ) : WithTop ℚ))
      else rs[n]? := by
  unfold rangeStep
  by_cases hrej : rejectPoint P (hypF p.x p.y) (at2F p.y p.x) = true
  · simp [hrej]
  · rw [Bool.not_eq_true] at hrej
    rw [if_neg (by simp [hrej])]
    by_cases hidx : binIndex P (at2F p.y p.x) = (n : Int)
    · rw [hidx]
      have hc : rejectPoint P (hypF p.x p.y) (at2F p.y p.x) = false ∧
          ((n : Int) = (n : Int)) := ⟨hrej, rfl⟩
      rw [if_pos hc]
      by_cases hlt : ((hypF p.x p.y : ℚ) : WithTop ℚ) < getAt rs (n : Int)
      · rw [if_pos hlt, getElem?_setAt]
        by_cases hn : n < rs.length
        · have hcc : ((n : Int) = (n : Int)) ∧ n < rs.length := ⟨rfl, hn⟩
          rw [if_pos hcc, List.getElem?_eq_getElem hn]
          simp only [getAt_natCast, List.getElem?_eq_getElem hn,
            Option.getD_some] at hlt
          simp [min_eq_right (le_of_lt hlt)]
        · rw [if_neg (fun h => hn h.2), List.getElem?_eq_none (le_of_not_lt hn)]
          rfl
      · rw [if_neg hlt]
        by_cases hn : n < rs.length
        · rw [List.getElem?_eq_getElem hn]
          simp only [getAt_natCast, List.getElem?_eq_getElem hn,
            Option.getD_some] at hlt
          simp [min_eq_left (not_lt.mp hlt)]
        · rw [List.getElem?_eq_none (le_of_not_lt hn)]
          rfl
    · have hc2 : ¬(rejectPoint P (hypF p.x p.y) (at2F p.y p.x) = false ∧
          binIndex P (at2F p.y p.x) = (n : Int)) := fun h => hidx h.2
      rw [if_neg hc2]
      by_cases hlt : ((hypF p.x p.y : ℚ) : WithTop ℚ) <
          getAt rs (binIndex P (at2F p.y p.x))
      · have hc3 : ¬(binIndex P (at2F p.y p.x) = (n : Int) ∧ n < rs.length) :=
          fun h => hidx h.1
        rw [if_pos hlt, getElem?_setAt, if_neg hc3]
      · rw [if_neg hlt]

theorem rangeStep_right_comm (P : ScanParams) (hypF at2F : ℚ → ℚ → ℚ)
    (rs : List (WithTop ℚ)) (p q : SCAN_POINT) :
    rangeStep P hypF at2F (rangeStep P hypF at2F rs p) q =
      rangeStep P hypF at2F (rangeStep P hypF at2F rs q) p := by
  apply List.ext_getElem?
  intro n
  rw [getElem?_rangeStep, getElem?_rangeStep, getElem?_rangeStep,
    getElem?_rangeStep]
  by_cases hp : rejectPoint P (hypF p.x p.y) (at2F p.y p.x) = false ∧
      binIndex P (at2F p.y p.x) = (n : Int)
  · by_cases hq : rejectPoint P (hypF q.x q.y) (at2F q.y q.x) = false ∧
        binIndex P (at2F q.y q.x) = (n : Int)
    · simp only [if_pos hp, if_pos hq, Option.map_map]
      cases rs[n]? with
      | none => rfl
      | some old => simp [Function.comp, min_right_comm]
    · simp only [if_pos hp, if_neg hq]
  · by_cases hq : rejectPoint P (hypF q.x q.y) (at2F q.y q.x) = false ∧
        binIndex P (at2F q.y q.x) = (n : Int)
    · simp only [if_neg hp, if_pos hq]
    · simp only [if_neg hp, if_neg hq]

theorem buildLaserScan_ranges (P : ScanParams) (hypF at2F : ℚ → ℚ → ℚ)
    (pts : List SCAN_POINT) :
    (buildLaserScan P hypF at2F pts).ranges =
      pts.foldl (rangeStep P hypF at2F)
        (List.replicate (rangesSize P)
          (if P.use_inf then ⊤
           else ((P.max_range + P.inf_epsilon : ℚ) : WithTop ℚ))) := by
  unfold buildLaserScan
  exact foldl_scanStep_fst _ _ _ _ _ _

/-- Claim C3: the per-bin minimum range produced by the Range-Scan Projection
is invariant under permutation of the point iteration order: fusing the same
points in any order yields the same range value in every output bin (the
published range array is identical; only the intensity array may depend on
the order). -/
theorem convertLaserScan_ranges_perm_invariant (P : ScanParams)
    (hypF at2F : ℚ → ℚ → ℚ) (pts1 pts2 : List SCAN_POINT)
    (hperm : pts1.Perm pts2) :
    (ConvertLaserScan P hypF at2F pts1).map LaserScanOut.ranges =
      (ConvertLaserScan P hypF at2F pts2).map LaserScanOut.ranges := by
  haveI : RightCommutative (rangeStep P hypF at2F) :=
    ⟨fun rs p q => rangeStep_right_comm P hypF at2F rs p q⟩
  unfold ConvertLaserScan
  cases pts1 with
  | nil =>
      have h2 : pts2 = [] := hperm.symm.eq_nil
      subst h2
      rfl
  | cons p l =>
      cases pts2 with
      | nil => exact absurd hperm.eq_nil (by simp)
      | cons q m =>
          have key : (buildLaserScan P hypF at2F (p :: l)).ranges =
              (buildLaserScan P hypF at2F (q :: m)).ranges := by
            rw [buildLaserScan_ranges, buildLaserScan_ranges]
            exact hperm.foldl_eq _
          simp [key]

/-- Witness for C3 at a concrete input: the two-point set at ranges 4 and 5/2
falling in the same bin gives the same range array in both orders. -/
theorem convertLaserScan_ranges_perm_invariant_witness :
    List.Perm [(⟨4, 0, 0, none⟩ : SCAN_POINT), ⟨5/2, 0, 0, none⟩]
      [⟨5/2, 0, 0, none⟩, ⟨4, 0, 0, none⟩] ∧
    (ConvertLaserScan ⟨0, 2, 1, 0, 10, true, 1⟩ (fun x _ => x) (fun _ _ => 1/2)
        [⟨4, 0, 0, none⟩, ⟨5/2, 0, 0, none⟩]).map LaserScanOut.ranges =
      (ConvertLaserScan ⟨0, 2, 1, 0, 10, true, 1⟩ (fun x _ => x)
          (fun _ _ => 1/2)
          [⟨5/2, 0, 0, none⟩, ⟨4, 0, 0, none⟩]).map LaserScanOut.ranges :=
  ⟨List.Perm.swap _ _ _,
   convertLaserScan_ranges_perm_invariant ⟨0, 2, 1, 0, 10, true, 1⟩
     (fun x _ => x) (fun _ _ => 1/2) _ _ (List.Perm.swap _ _ _)⟩

/-- The intensity-array part of one projection-loop iteration when the
`has_intensity` flag is set: every point that survives the filter overwrites
its bin's intensity, whether or not it improved the bin's range
(the write at line 333 is not guarded by the line 327 comparison). -/
def intensityStep (P : ScanParams) (hypF at2F : ℚ → ℚ → ℚ)
    (is : List ℚ) (p : SCAN_POINT) : List ℚ :=
  if rejectPoint P (hypF p.x p.y) (at2F p.y p.x) then is
  else setAt is (binIndex P (at2F p.y p.x)) (p.intensity.getD 0)

theorem scanStep_snd_true (P : ScanParams) (hypF at2F : ℚ → ℚ → ℚ)
    (st : List (WithTop ℚ) × List ℚ) (p : SCAN_POINT) :
    (scanStep P hypF at2F true st p).2 = intensityStep P hypF at2F st.2 p := by
  by_cases hrej : rejectPoint P (hypF p.x p.y) (at2F p.y p.x) = true
  · simp [scanStep, intensityStep, hrej]
  · simp [scanStep, intensityStep, hrej]

theorem scanStep_snd_false (P : ScanParams) (hypF at2F : ℚ → ℚ → ℚ)
    (st : List (WithTop ℚ) × List ℚ) (p : SCAN_POINT) :
    (scanStep P hypF at2F false st p).2 = st.2 := by
  by_cases hrej : rejectPoint P (hypF p.x p.y) (at2F p.y p.x) = true
  · simp [scanStep, hrej]
  · simp [scanStep, hrej]

theorem foldl_scanStep_snd_true (P : ScanParams) (hypF at2F : ℚ → ℚ → ℚ)
    (l : List SCAN_POINT) (st : List (WithTop ℚ) × List ℚ) :
    (l.foldl (scanStep P hypF at2F true) st).2 =
      l.foldl (intensityStep P hypF at2F) st.2 := by
  induction l generalizing st with
  | nil => rfl
  | cons p l ih =>
      rw [List.foldl_cons, List.foldl_cons, ih, scanStep_snd_true]

theorem foldl_scanStep_snd_false (P : ScanParams) (hypF at2F : ℚ → ℚ → ℚ)
    (l : List SCAN_POINT) (st : List (WithTop ℚ) × List ℚ) :
    (l.foldl (scanStep P hypF at2F false) st).2 = st.2 := by
  induction l generalizing st with
  | nil => rfl
  | cons p l ih =>
      rw [List.foldl_cons, ih, scanStep_snd_false]

theorem length_intensityStep (P : ScanParams) (hypF at2F : ℚ → ℚ → ℚ)
    (is : List ℚ) (p : SCAN_POINT) :
    (intensityStep P hypF at2F is p).length = is.length := by
  unfold intensityStep
  split
  · rfl
  · exact length_setAt _ _ _

theorem length_foldl_intensityStep (P : ScanParams) (hypF at2F : ℚ → ℚ → ℚ)
    (l : List SCAN_POINT) (is : List ℚ) :
    (l.foldl (intensityStep P hypF at2F) is).length = is.length := by
  induction l generalizing is with
  | nil => rfl
  | cons p l ih =>
      rw [List.foldl_cons, ih, length_intensityStep]

/-- Whether a point survives the filter of the projection loop and its bin
index is `b`. -/
def hitsBin (P : ScanParams) (hypF at2F : ℚ → ℚ → ℚ) (b : Nat)
    (p : SCAN_POINT) : Bool :=
  !(rejectPoint P (hypF p.x p.y) (at2F p.y p.x)) &&
    (binIndex P (at2F p.y p.x) == (b : Int))

theorem getD_intensityStep (P : ScanParams) (hypF at2F : ℚ → ℚ → ℚ)
    (is : List ℚ) (p : SCAN_POINT) (b : Nat) (hb : b < is.length) :
    (intensityStep P hypF at2F is p).getD b 0 =
      if hitsBin P hypF at2F b p then p.intensity.getD 0 else is.getD b 0 := by
  unfold intensityStep hitsBin
  by_cases hrej : rejectPoint P (hypF p.x p.y) (at2F p.y p.x) = true
  · simp [hrej]
  · rw [Bool.not_eq_true] at hrej
    rw [if_neg (by simp [hrej])]
    by_cases hidx : binIndex P (at2F p.y p.x) = (b : Int)
    · rw [List.getD_eq_getElem?_getD, getElem?_setAt, if_pos ⟨hidx, hb⟩]
      simp [hrej, hidx]
    · rw [List.getD_eq_getElem?_getD, getElem?_setAt,
        if_neg (fun h => hidx h.1), ← List.getD_eq_getElem?_getD]
      have : (binIndex P (at2F p.y p.x) == (b : Int)) = false :=
        beq_eq_false_iff_ne.mpr hidx
      simp [hrej, this]

/-- The intensity array evolves by last-writer-wins: after folding the loop
over `l`, bin `b` holds the intensity of the last point of `l` that hit bin
`b`, or its initial value if none did. -/
theorem foldl_intensityStep_lastHit (P : ScanParams) (hypF at2F : ℚ → ℚ → ℚ)
    (l : List SCAN_POINT) (is : List ℚ) (b : Nat) (hb : b < is.length) :
    (l.foldl (intensityStep P hypF at2F) is).getD b 0 =
      match (l.filter (hitsBin P hypF at2F b)).getLast? with
      | some p => p.intensity.getD 0
      | none => is.getD b 0 := by
  induction l generalizing is with
  | nil => rfl
  | cons p l ih =>
      rw [List.foldl_cons, List.filter_cons]
      have hb' : b < (intensityStep P hypF at2F is p).length := by
        rw [length_intensityStep]
        exact hb
      by_cases hp : hitsBin P hypF at2F b p = true
      · rw [if_pos hp, ih _ hb']
        cases hlast : (l.filter (hitsBin P hypF at2F b)).getLast? with
        | some q =>
            have : (p :: l.filter (hitsBin P hypF at2F b)).getLast? = some q := by
              rw [show p :: l.filter (hitsBin P hypF at2F b) =
                    [p] ++ l.filter (hitsBin P hypF at2F b) from rfl,
                List.getLast?_append, hlast]
              rfl
            rw [this]
        | none =>
            have hnil : l.filter (hitsBin P hypF at2F b) = [] := by
              cases hf : l.filter (hitsBin P hypF at2F b) with
              | nil => rfl
              | cons a as =>
                  rw [hf] at hlast
                  simp [List.getLast?_cons] at hlast
            have : (p :: l.filter (hitsBin P hypF at2F b)).getLast? = some p := by
              rw [hnil]
              rfl
            rw [this, getD_intensityStep P hypF at2F is p b hb, if_pos hp]
      · rw [if_neg hp, ih _ hb']
        have hstep : (intensityStep P hypF at2F is p).getD b 0 = is.getD b 0 := by
          rw [getD_intensityStep P hypF at2F is p b hb, if_neg hp]
        cases (l.filter (hitsBin P hypF at2F b)).getLast? with
        | some q => rfl
        | none => exact hstep

/-- Claim C1, counterexample: with two points in the same bin processed in
order (range 1, intensity 10) then (range 2, intensity 20), the bin's winning
minimum range is 1 — set by the intensity-10 point, the only point to update
the range — yet the published bin intensity is 20: the intensity write at
line 333 is not conditioned on the range update at lines 327-330, so the
claim's "intensity equals the intensity of the point that last set the bin's
winning minimum range" is false. -/
theorem convertLaserScan_bin_intensity_not_min_winner :
    (buildLaserScan ⟨0, 2, 1, 0, 10, true, 1⟩ (fun x _ => x) (fun _ _ => 1/2)
        [⟨1, 0, 0, some 10⟩, ⟨2, 0, 0, some 20⟩]).ranges.getD 0 ⊤ =
      ((1 : ℚ) : WithTop ℚ) ∧
    (buildLaserScan ⟨0, 2, 1, 0, 10, true, 1⟩ (fun x _ => x) (fun _ _ => 1/2)
        [⟨1, 0, 0, some 10⟩, ⟨2, 0, 0, some 20⟩]).intensities.getD 0 0 = 20 := by
  norm_num [buildLaserScan, scanStep, rejectPoint, binIndex, cTrunc,
    rangesSize, cCeil, getAt, setAt, List.replicate, Int.toNat_ofNat,
    WithTop.coe_lt_top]

/-- Claim C1, amended: a bin's intensity is overwritten by every
filter-passing point that falls in the bin, regardless of whether that point
updated the bin's range; after processing, each bin's intensity equals the
intensity of the last filter-passing point (in iteration order) that mapped
to the bin, or the initial 0 if none did. -/
theorem convertLaserScan_bin_intensity_last_writer (P : ScanParams)
    (hypF at2F : ℚ → ℚ → ℚ) (p0 : SCAN_POINT) (rest : List SCAN_POINT)
    (h0 : p0.intensity.isSome = true) (b : Nat) (hb : b < rangesSize P) :
    (buildLaserScan P hypF at2F (p0 :: rest)).intensities.getD b 0 =
      match ((p0 :: rest).filter (hitsBin P hypF at2F b)).getLast? with
      | some p => p.intensity.getD 0
      | none => 0 := by
  have h1 : (buildLaserScan P hypF at2F (p0 :: rest)).intensities =
      (p0 :: rest).foldl (intensityStep P hypF at2F)
        (List.replicate (rangesSize P) 0) := by
    unfold buildLaserScan
    simp only [h0, if_true]
    exact foldl_scanStep_snd_true P hypF at2F (p0 :: rest) _
  have hb' : b < (List.replicate (rangesSize P) (0 : ℚ)).length := by
    simpa using hb
  have hrep : (List.replicate (rangesSize P) (0 : ℚ)).getD b 0 = 0 := by
    rw [List.getD_eq_getElem?_getD, List.getElem?_replicate]
    split <;> rfl
  rw [h1]
  cases hlast : ((p0 :: rest).filter (hitsBin P hypF at2F b)).getLast? with
  | some q =>
      rw [foldl_intensityStep_lastHit P hypF at2F (p0 :: rest) _ b hb', hlast]
  | none =>
      rw [foldl_intensityStep_lastHit P hypF at2F (p0 :: rest) _ b hb', hlast]
      exact hrep

/-- Witness for the amended C1 at a concrete input: in the two-point set of
the counterexample, bin 0's intensity is that of the last filter-passing
point that mapped to bin 0. -/
theorem convertLaserScan_bin_intensity_last_writer_witness :
    (⟨1, 0, 0, some 10⟩ : SCAN_POINT).intensity.isSome = true ∧
    0 < rangesSize ⟨0, 2, 1, 0, 10, true, 1⟩ ∧
    (buildLaserScan ⟨0, 2, 1, 0, 10, true, 1⟩ (fun x _ => x) (fun _ _ => 1/2)
        [⟨1, 0, 0, some 10⟩, ⟨2, 0, 0, some 20⟩]).intensities.getD 0 0 =
      match (([⟨1, 0, 0, some 10⟩, ⟨2, 0, 0, some 20⟩] : List SCAN_POINT).filter
          (hitsBin ⟨0, 2, 1, 0, 10, true, 1⟩ (fun x _ => x)
            (fun _ _ => 1/2) 0)).getLast? with
      | some p => p.intensity.getD 0
      | none => 0 :=
  ⟨rfl, by norm_num [rangesSize, cCeil],
   convertLaserScan_bin_intensity_last_writer ⟨0, 2, 1, 0, 10, true, 1⟩
     (fun x _ => x) (fun _ _ => 1/2) ⟨1, 0, 0, some 10⟩ [⟨2, 0, 0, some 20⟩]
     rfl 0 (by norm_num [rangesSize, cCeil])⟩

/-- Claim C2, counterexample: with `angle_min = 0`, `angle_max = 3/2`,
`angle_increment = 1`, a point whose computed angle is exactly `angle_max`
is *not* discarded: the filter at line 321 tests `angle > angle_max`, which
is false at equality, and the point's range 1 lands in bin 1 of the
published scan (overwriting the `inf` fill), so the claim that a point
exactly at `angle_max` is excluded is false. -/
theorem convertLaserScan_angle_max_point_included :
    rejectPoint ⟨0, 3/2, 1, 1/2, 10, true, 1⟩ 1 (3/2) = false ∧
    (buildLaserScan ⟨0, 3/2, 1, 1/2, 10, true, 1⟩ (fun _ _ => 1)
        (fun _ _ => 3/2) [⟨1, 1, 0, none⟩]).ranges.getD 1 ⊤ =
      ((1 : ℚ) : WithTop ℚ) := by
  have hc : (⌈(3/2 : ℚ)⌉ : Int) = 2 := by
    rw [Int.ceil_eq_iff]
    norm_num
  norm_num [buildLaserScan, scanStep, rejectPoint, binIndex, cTrunc,
    rangesSize, cCeil, getAt, setAt, List.replicate, Int.toNat_ofNat,
    WithTop.coe_lt_top, hc]

/-- Claim C2, amended: the Range-Scan Projection's filter discards a point
iff its range is strictly below `range_min`, strictly above `range_max`, or
its angle is strictly below `angle_min` or strictly above `angle_max`; in
particular a point whose angle equals `angle_max` exactly (or `angle_min`
exactly) passes the filter and is included, provided its range is within
bounds. -/
theorem rejectPoint_false_iff (P : ScanParams) (range angle : ℚ) :
    rejectPoint P range angle = false ↔
      (P.min_range ≤ range ∧ range ≤ P.max_range ∧
       P.min_angle ≤ angle ∧ angle ≤ P.max_angle) := by
  simp [rejectPoint, not_lt, and_assoc]

theorem foldl_skip_append {α β : Type} (c : α → Prop) [DecidablePred c]
    (f : α → β) (l : List α) (acc : List β) :
    l.foldl (fun pts i => if c i then pts else pts ++ [f i]) acc =
      acc ++ (l.filter (fun i => decide (¬ c i))).map f := by
  induction l generalizing acc with
  | nil => simp
  | cons x xs ih =>
      rw [List.foldl_cons, List.filter_cons]
      by_cases hx : c x
      · simp [hx, ih]
      · simp [hx, ih]

/-- Claim C4: a scan sample contributes a fused point iff its range is
strictly inside `(range_min, range_max)`: the produced point list is exactly
the in-order image of the sample indices whose range passes the strict gate,
so a sample exactly at `range_min` or exactly at `range_max` is dropped
(line 170 tests `<=` and `>=`) and samples strictly inside pass. -/
theorem scanLoopPoints_range_gate (cosF sinF : ℚ → ℚ) (T : Mat4)
    (scan : LaserScanMsgIn) :
    scanLoopPoints cosF sinF T scan =
      ((List.range scan.ranges.length).filter (fun i =>
          decide (scan.range_min < scan.ranges.getD i 0 ∧
                  scan.ranges.getD i 0 < scan.range_max))).map
        (scanPointAt cosF sinF T scan
          (scan.intensities.length == scan.ranges.length)) := by
  unfold scanLoopPoints
  rw [foldl_skip_append
    (fun i => scan.ranges.getD i 0 ≤ scan.range_min ∨
      scan.ranges.getD i 0 ≥ scan.range_max)
    (scanPointAt cosF sinF T scan
      (scan.intensities.length == scan.ranges.length))
    (List.range scan.ranges.length) [], List.nil_append]
  congr 1
  apply List.filter_congr
  intro i _
  apply decide_eq_decide.mpr
  constructor
  · intro h
    push_neg at h
    exact ⟨h.1, h.2⟩
  · intro h
    push_neg
    exact ⟨h.1, h.2⟩

/-- Claim C5, counterexample: transform lookup fails for source "A" and
succeeds for source "B", whose single valid sample carries no intensity
(empty intensities array).  B's point is fused into the accumulator, but the
cycle then aborts inside `ConvertPointCloud2` — the no-intensity branch is
the `setPointCloud2Fields(4, ...)` varargs over-read of lines 256-258
followed by the throwing "intensity" iterator construction at line 264 — so
nothing is published that cycle: the claim's "still has its points fused and
published that cycle" is false. -/
theorem laserMerge_failed_lookup_no_publish_without_intensity :
    scantoPointXYZ (fun _ => 1) (fun _ => 0)
      (fun f => if f == "B" then some ⟨0, 0, 0, 0⟩ else none)
      ⟨"B", 0, 1, 1/2, 10, [1], []⟩ = [⟨1, 0, 0, none⟩] ∧
    laserMergeCycle ⟨0, 2, 1, 0, 10, true, 1⟩ (fun _ => 1) (fun _ => 0)
      (fun x _ => x) (fun _ _ => 1)
      (fun f => if f == "B" then some ⟨0, 0, 0, 0⟩ else none) (fun _ => none)
      [⟨"A", 0, 1, 0, 10, [1], []⟩, ⟨"B", 0, 1, 1/2, 10, [1], []⟩] [] =
      Except.error () := by
  have hB : scantoPointXYZ (fun _ => 1) (fun _ => 0)
      (fun f => if f == "B" then some ⟨0, 0, 0, 0⟩ else none)
      ⟨"B", 0, 1, 1/2, 10, [1], []⟩ = [⟨1, 0, 0, none⟩] := by
    norm_num [scantoPointXYZ, scanLoopPoints, scanPointAt, ConvertTransMatrix,
      Rotate3Z, mat4Apply, vec4Dot, List.range_succ, List.range_zero]
  have hA : scantoPointXYZ (fun _ => (1 : ℚ)) (fun _ => (0 : ℚ))
      (fun f => if f == "B" then some (⟨0, 0, 0, 0⟩ : TransRecord) else none)
      ⟨"A", 0, 1, 0, 10, [1], []⟩ = [] := by
    simp [scantoPointXYZ]
  refine ⟨hB, ?_⟩
  have hdrain : drainBuffers (fun _ => (1 : ℚ)) (fun _ => (0 : ℚ))
      (fun f => if f == "B" then some (⟨0, 0, 0, 0⟩ : TransRecord) else none)
      (fun _ => none)
      [⟨"A", 0, 1, 0, 10, [1], []⟩, ⟨"B", 0, 1, 1/2, 10, [1], []⟩] [] =
      Except.ok [⟨1, 0, 0, none⟩] := by
    unfold drainBuffers
    simp only [List.foldl_cons, List.foldl_nil, List.nil_append]
    rw [hA, hB]
    rfl
  unfold laserMergeCycle
  rw [hdrain]
  rfl

/-- Claim C5, amended: when the transform lookup for one scan source fails,
that source contributes an empty point set for the cycle — the exception is
caught at lines 159-163, so it does not abort the cycle — and the cycle's
accumulator contains exactly the successful source's points; *provided the
first fused point carries intensity* (so the point-cloud projection takes
its intact `has_intensity` branch rather than the undefined-behaviour /
throwing no-intensity branch of lines 256-264), both projections run and
publish output containing only the successful source's points. -/
theorem laserMerge_failed_lookup_isolated (P : ScanParams)
    (cosF sinF : ℚ → ℚ) (hypF at2F : ℚ → ℚ → ℚ)
    (lookup : String → Option TransRecord)
    (tpc : PointCloud2In → Option PointCloud2In) (sA sB : LaserScanMsgIn)
    (p0 : SCAN_POINT) (rest : List SCAN_POINT)
    (hfail : lookup sA.frame_id = none)
    (hB : scantoPointXYZ cosF sinF lookup sB = p0 :: rest)
    (hint : p0.intensity.isSome = true) :
    drainBuffers cosF sinF lookup tpc [sA, sB] [] = Except.ok (p0 :: rest) ∧
    laserMergeCycle P cosF sinF hypF at2F lookup tpc [sA, sB] [] =
      Except.ok (some (buildPointCloud2 (p0 :: rest)),
        ConvertLaserScan P hypF at2F (p0 :: rest)) := by
  have hA : scantoPointXYZ cosF sinF lookup sA = [] := by
    unfold scantoPointXYZ
    rw [hfail]
  have hdrain : drainBuffers cosF sinF lookup tpc [sA, sB] [] =
      Except.ok (p0 :: rest) := by
    unfold drainBuffers
    simp [hA, hB]
  refine ⟨hdrain, ?_⟩
  unfold laserMergeCycle
  rw [hdrain]
  simp [ConvertPointCloud2, hint]

/-- Witness for the amended C5 at a concrete input: source "A" has no
transform, source "B" has one valid sample carrying intensity 9; the cycle
fuses exactly B's point and publishes both messages built from it. -/
theorem laserMerge_failed_lookup_isolated_witness :
    (fun f => if f == "B" then some (⟨0, 0, 0, 0⟩ : TransRecord) else none)
        (LaserScanMsgIn.frame_id ⟨"A", 0, 1, 0, 10, [1], []⟩) = none ∧
    scantoPointXYZ (fun _ => 1) (fun _ => 0)
        (fun f => if f == "B" then some ⟨0, 0, 0, 0⟩ else none)
        ⟨"B", 0, 1, 1/2, 10, [1], [9]⟩ = [⟨1, 0, 0, some 9⟩] ∧
    (⟨1, 0, 0, some 9⟩ : SCAN_POINT).intensity.isSome = true ∧
    (drainBuffers (fun _ => 1) (fun _ => 0)
        (fun f => if f == "B" then some ⟨0, 0, 0, 0⟩ else none) (fun _ => none)
        [⟨"A", 0, 1, 0, 10, [1], []⟩, ⟨"B", 0, 1, 1/2, 10, [1], [9]⟩] [] =
      Except.ok [⟨1, 0, 0, some 9⟩] ∧
    laserMergeCycle ⟨0, 2, 1, 0, 10, true, 1⟩ (fun _ => 1) (fun _ => 0)
        (fun x _ => x) (fun _ _ => 1)
        (fun f => if f == "B" then some ⟨0, 0, 0, 0⟩ else none) (fun _ => none)
        [⟨"A", 0, 1, 0, 10, [1], []⟩, ⟨"B", 0, 1, 1/2, 10, [1], [9]⟩] [] =
      Except.ok (some (buildPointCloud2 [⟨1, 0, 0, some 9⟩]),
        ConvertLaserScan ⟨0, 2, 1, 0, 10, true, 1⟩ (fun x _ => x)
          (fun _ _ => 1) [⟨1, 0, 0, some 9⟩])) := by
  have hB : scantoPointXYZ (fun _ => 1) (fun _ => 0)
      (fun f => if f == "B" then some ⟨0, 0, 0, 0⟩ else none)
      ⟨"B", 0, 1, 1/2, 10, [1], [9]⟩ = [⟨1, 0, 0, some 9⟩] := by
    norm_num [scantoPointXYZ, scanLoopPoints, scanPointAt, ConvertTransMatrix,
      Rotate3Z, mat4Apply, vec4Dot, List.range_succ, List.range_zero]
  exact ⟨by simp, hB, rfl,
    laserMerge_failed_lookup_isolated ⟨0, 2, 1, 0, 10, true, 1⟩ (fun _ => 1)
      (fun _ => 0) (fun x _ => x) (fun _ _ => 1)
      (fun f => if f == "B" then some ⟨0, 0, 0, 0⟩ else none) (fun _ => none)
      ⟨"A", 0, 1, 0, 10, [1], []⟩ ⟨"B", 0, 1, 1/2, 10, [1], [9]⟩
      ⟨1, 0, 0, some 9⟩ [] (by simp) hB rfl⟩

/-- Claim C6: in every fusion cycle in which the drained buffers yield zero
fused points, no point-cloud message and no scan message is published that
cycle: when the drain completes with an empty accumulator, the
`!points.empty()` guard at line 366 skips both projections, so the cycle
ends having published neither message. -/
theorem laserMergeCycle_no_points_publishes_nothing (P : ScanParams)
    (cosF sinF : ℚ → ℚ) (hypF at2F : ℚ → ℚ → ℚ)
    (lookup : String → Option TransRecord)
    (tpc : PointCloud2In → Option PointCloud2In)
    (scanBuf : List LaserScanMsgIn) (cloudBuf : List PointCloud2In)
    (hdrain : drainBuffers cosF sinF lookup tpc scanBuf cloudBuf =
      Except.ok []) :
    laserMergeCycle P cosF sinF hypF at2F lookup tpc scanBuf cloudBuf =
      Except.ok (none, none) := by
  unfold laserMergeCycle
  rw [hdrain]
  rfl

/-- Witness for C6 at a concrete input: a cycle with empty buffers drains
zero points and publishes neither message. -/
theorem laserMergeCycle_no_points_publishes_nothing_witness :
    drainBuffers (fun _ => 1) (fun _ => 0) (fun _ => none) (fun _ => none)
      [] [] = Except.ok [] ∧
    laserMergeCycle ⟨0, 2, 1, 0, 10, true, 1⟩ (fun _ => 1) (fun _ => 0)
      (fun x _ => x) (fun _ _ => 1) (fun _ => none) (fun _ => none) [] [] =
      Except.ok (none, none) :=
  ⟨rfl,
   laserMergeCycle_no_points_publishes_nothing ⟨0, 2, 1, 0, 10, true, 1⟩
     (fun _ => 1) (fun _ => 0) (fun x _ => x) (fun _ _ => 1) (fun _ => none)
     (fun _ => none) [] [] rfl⟩

/-- Claim C7, counterexample: a two-point set whose first point lacks
intensity and whose second carries it produces a scan message with *no*
intensities array (`has_intensity` at line 313 inspects only `points[0]`),
so "allocated if and only if any point carries intensity" is false. -/
theorem convertLaserScan_intensity_allocation_first_point_only :
    (ConvertLaserScan ⟨0, 2, 1, 0, 10, true, 1⟩ (fun x _ => x)
        (fun _ _ => 1) [⟨1, 0, 0, none⟩, ⟨2, 0, 0, some 7⟩]).map
      LaserScanOut.intensities = some [] ∧
    ([⟨1, 0, 0, none⟩, (⟨2, 0, 0, some 7⟩ : SCAN_POINT)].any
      (fun p => p.intensity.isSome)) = true := by
  constructor
  · norm_num [ConvertLaserScan, buildLaserScan, scanStep, rejectPoint,
      binIndex, cTrunc, rangesSize, cCeil, getAt, setAt, List.replicate,
      Int.toNat_ofNat, WithTop.coe_lt_top]
  · rfl

/-- Claim C7, amended: the parallel intensities array is allocated (with one
zero-initialized slot per ray) if and only if the *first* point of the set
carries intensity; a set whose first point lacks intensity gets no
intensities array even when later points carry it. -/
theorem convertLaserScan_intensities_length (P : ScanParams)
    (hypF at2F : ℚ → ℚ → ℚ) (p0 : SCAN_POINT) (rest : List SCAN_POINT) :
    (buildLaserScan P hypF at2F (p0 :: rest)).intensities.length =
      if p0.intensity.isSome then rangesSize P else 0 := by
  by_cases h0 : p0.intensity.isSome = true
  · rw [if_pos h0]
    have h1 : (buildLaserScan P hypF at2F (p0 :: rest)).intensities =
        (p0 :: rest).foldl (intensityStep P hypF at2F)
          (List.replicate (rangesSize P) 0) := by
      unfold buildLaserScan
      simp only [h0, if_true]
      exact foldl_scanStep_snd_true P hypF at2F (p0 :: rest) _
    rw [h1, length_foldl_intensityStep]
    exact List.length_replicate _ _
  · rw [Bool.not_eq_true] at h0
    rw [if_neg (by simp [h0])]
    have h1 : (buildLaserScan P hypF at2F (p0 :: rest)).intensities = [] := by
      unfold buildLaserScan
      simp only [h0, Bool.false_eq_true, if_false]
      exact foldl_scanStep_snd_false P hypF at2F (p0 :: rest) _
    rw [h1]
    rfl

theorem takeWhile_all_append (l tl : List MergeEvent)
    (h : ∀ e ∈ l, (e != MergeEvent.lockRelease) = true) :
    (l ++ MergeEvent.lockRelease :: tl).takeWhile
      (fun e => e != MergeEvent.lockRelease) = l := by
  induction l with
  | nil =>
      rw [List.nil_append, List.takeWhile_cons]
      have hb : (MergeEvent.lockRelease != MergeEvent.lockRelease) = false := rfl
      rw [hb]
      simp
  | cons x xs ih =>
      rw [List.cons_append, List.takeWhile_cons, if_pos (h x (by simp)),
        ih (fun e he => h e (by simp [he]))]

/-- Claim C8, counterexample: the conversion of a buffered scan happens
*inside* the critical section: the `std::lock_guard` block of `laser_merge`
(lines 347-364) encloses the `scantoPointXYZ` calls — which perform the
transform lookup and the geometric conversion — so the claim that transform
lookups and conversions execute outside the critical section is false. -/
theorem laserMerge_conversion_in_critical_section :
    MergeEvent.convertScan "laser" ∈
      criticalSection (laserMergeTrace ["laser"] [] true) := by
  rw [show criticalSection (laserMergeTrace ["laser"] [] true) =
    [MergeEvent.convertScan "laser", MergeEvent.clearScanBuffer,
      MergeEvent.clearCloudBuffer] from rfl]
  exact List.mem_cons_self _ _

/-- Claim C8, amended: the shared lock is held across the entire drain *and
conversion* step: the critical section of a fusion cycle consists exactly of
the per-source scan conversions, the scan-buffer clear, the per-source cloud
conversions and the cloud-buffer clear; only the two publications run after
the lock is released.  (So transform lookups and geometric conversion do
block concurrent ingestion callbacks for their whole duration.) -/
theorem laserMerge_critical_section_is_drain_and_convert
    (scanFrames cloudFrames : List String) (pub : Bool) :
    criticalSection (laserMergeTrace scanFrames cloudFrames pub) =
      scanFrames.map MergeEvent.convertScan ++ MergeEvent.clearScanBuffer ::
        (cloudFrames.map MergeEvent.convertCloud ++
          [MergeEvent.clearCloudBuffer]) := by
  have htr : laserMergeTrace scanFrames cloudFrames pub =
      MergeEvent.lockAcquire ::
        ((scanFrames.map MergeEvent.convertScan ++
            MergeEvent.clearScanBuffer ::
              (cloudFrames.map MergeEvent.convertCloud ++
                [MergeEvent.clearCloudBuffer])) ++
          MergeEvent.lockRelease ::
            (if pub then [MergeEvent.publishCloud, MergeEvent.publishScan]
             else [])) := by
    unfold laserMergeTrace
    simp [List.append_assoc]
  have hcs : ∀ rest : List MergeEvent,
      criticalSection (MergeEvent.lockAcquire :: rest) =
        rest.takeWhile (fun e => e != MergeEvent.lockRelease) := by
    intro rest
    unfold criticalSection
    rw [List.dropWhile_cons]
    have hb : (MergeEvent.lockAcquire != MergeEvent.lockAcquire) = false := rfl
    rw [hb]
    simp
  rw [htr, hcs]
  apply takeWhile_all_append
  intro e he
  simp only [List.mem_append, List.mem_cons, List.mem_map,
    List.not_mem_nil, or_false] at he
  rcases he with ⟨s, _, rfl⟩ | rfl | ⟨s, _, rfl⟩ | rfl <;> rfl

/-- Claim C9: evaluation at the failing input.  With `angle_min = 0`,
`angle_max = 2`, `angle_increment = 1` (so `ranges_size = ceil(2/1) = 2`),
a point whose angle is exactly `angle_max = 2` and whose range is 1 passes
the filter of line 321, yet its computed bin index is 2 — not a valid index
into the two-element range array, so the write `ranges[2]` at line 329 is
out of bounds. -/
theorem convertLaserScan_bin_index_out_of_bounds :
    rejectPoint ⟨0, 2, 1, 0, 10, true, 1⟩ 1 2 = false ∧
    binIndex ⟨0, 2, 1, 0, 10, true, 1⟩ 2 = 2 ∧
    rangesSize ⟨0, 2, 1, 0, 10, true, 1⟩ = 2 ∧
    ¬((binIndex ⟨0, 2, 1, 0, 10, true, 1⟩ 2).toNat <
        rangesSize ⟨0, 2, 1, 0, 10, true, 1⟩) := by
  have hc : (⌈(2 : ℚ)⌉ : Int) = 2 := by
    rw [Int.ceil_eq_iff]
    norm_num
  norm_num [rejectPoint, binIndex, cTrunc, rangesSize, cCeil, hc]
  rfl

/-- Claim C10: evaluation at the failing input.  When the first fused point
carries intensity but a later point does not, both projections reach
`points[i].intensity.value()` on the empty optional: the point-cloud fill
loop (line 274) reads every point, and the scan projection loop (line 333)
reads every filter-passing point — here the intensity-less points pass the
filter — so the execution is not empty-optional-access free (in C++,
`std::optional::value()` throws `std::bad_optional_access`). -/
theorem intensity_value_on_empty_optional :
    convertPointCloud2Ok [⟨1, 0, 0, some 5⟩, ⟨0, 1, 0, none⟩] = false ∧
    convertLaserScanOk ⟨0, 2, 1, 0, 10, true, 1⟩ (fun x _ => x)
      (fun _ _ => 1) [⟨1, 0, 0, some 5⟩, ⟨2, 0, 0, none⟩] = false := by
  constructor
  · rfl
  · norm_num [convertLaserScanOk, rejectPoint]
